import Mathlib

/-!
Verification development for the go-legs subscriber/publisher code.

The Go sources are embedded shallowly: every function below mirrors one Go
function, with external collaborators (the head-query syncer, the wire
transfer, the CID parser, the link system, the pubsub Publish) passed in as
explicit parameters or result values.
-/

namespace GoLegs

/-- Content identifiers. `undef` models the zero value `cid.Undef` of the Go
`cid.Cid` type; every other CID is abstracted to a natural number.  Equality
is decidable, matching byte-wise CID equality. -/
inductive Cid
  | undef
  | mk (n : Nat)
deriving DecidableEq, Repr

/-- Peer identities (`peer.ID`), abstracted to naturals. -/
abbrev PeerId := Nat

/-- An IPLD selector as the httpsync subscriber sees it: either the node the
caller supplied verbatim, or the default selector sequence wrapped by
`legs.ExploreRecursiveWithStopNode` with a stop link. -/
inductive Sel
  | given (node : Nat)
  | wrapped (dss : Option Nat) (stop : Cid)
deriving DecidableEq, Repr

/-! ## httpsync subscriber: the background sync loop

`httpSubscriber.background` (httpsync part_000) processes one request per
iteration: either a request received on `h.reqs` (from a `Sync` call) or a
tick of the poll timer.  The iteration resolves the target CID (querying the
remote head when the request CID is `cid.Undef`), resolves the selector
(wrapping the default sequence with a stop at the current head when the
request selector is nil), runs `syncer.Sync`, and replaces `h.head` with the
target only when `updateHead` was set on entry. -/

/-- A request read from `h.reqs`: the CID field (where `Cid.undef` stands for
an unspecified CID) and the selector field (`none` stands for a nil
selector node). -/
structure Req where
  c : Cid
  dss : Option Nat
deriving DecidableEq, Repr

/-- What starts one iteration of the background loop: a request from
`h.reqs`, or the `defaultRate` timer firing. -/
inductive BgInput
  | req (r : Req)
  | timer
deriving DecidableEq, Repr

/-- How one iteration of the background loop ended. -/
inductive BgOutcome
  | headFetchFailed
  | syncFailed
  | synced (target : Cid) (updatedHead : Bool)
deriving DecidableEq, Repr

/-- The observable result of one background iteration: the new value of
`h.head` and what happened. -/
structure BgResult where
  head : Cid
  outcome : BgOutcome
deriving DecidableEq, Repr

/-- One iteration of `httpSubscriber.background`.  `hdss` is the
subscriber-wide default selector sequence `h.dss`; `head` is `h.head` on
entry; `getHead` is the result `syncer.GetHead` would return if called;
`syncRes tgt sel` is the error (`some msg`) or success (`none`) that
`syncer.Sync` returns for that target and selector. -/
def backgroundStep (hdss : Option Nat) (head : Cid) (inp : BgInput)
    (getHead : Except String Cid) (syncRes : Cid → Sel → Option String) :
    BgResult :=
  let init : Cid × Option Nat × Bool :=
    match inp with
    | .req r => (r.c, r.dss, r.dss == none && r.c == Cid.undef)
    | .timer => (Cid.undef, none, true)
  let nextCid0 := init.1
  let sel0 := init.2.1
  let updateHead := init.2.2
  match (if nextCid0 == Cid.undef then getHead else Except.ok nextCid0) with
  | .error _ => ⟨head, .headFetchFailed⟩
  | .ok nextCid =>
    let sel : Sel :=
      match sel0 with
      | some node => Sel.given node
      | none => Sel.wrapped hdss head
    match syncRes nextCid sel with
    | some _ => ⟨head, .syncFailed⟩
    | none => ⟨if updateHead then nextCid else head, .synced nextCid updateHead⟩

end GoLegs

namespace GoLegs

/-- The `updateHead` flag the background loop computes on entry: true for a
timer-triggered iteration, and for a request iff both its selector and its
CID are absent. -/
def updateHeadFlag : BgInput → Bool
  | .req r => r.dss == none && r.c == Cid.undef
  | .timer => true

/-- Helper: each iteration either leaves the head unchanged, or it ended as a
successful sync whose `updateHead` flag was set, in which case the new head
is the sync target. -/
theorem backgroundStep_head_cases (hdss : Option Nat) (head : Cid)
    (inp : BgInput) (getHead : Except String Cid)
    (syncRes : Cid → Sel → Option String) :
    (backgroundStep hdss head inp getHead syncRes).head = head ∨
    ((backgroundStep hdss head inp getHead syncRes).outcome =
        .synced (backgroundStep hdss head inp getHead syncRes).head true ∧
      updateHeadFlag inp = true) := by
  cases inp with
  | req r =>
    rcases r with ⟨c, dss⟩
    unfold backgroundStep updateHeadFlag
    dsimp only
    split
    · exact Or.inl rfl
    · split
      · exact Or.inl rfl
      · by_cases hu : (dss == none && c == Cid.undef) = true
        · right
          simp [hu]
        · left
          rw [Bool.not_eq_true] at hu
          simp [hu]
  | timer =>
    unfold backgroundStep updateHeadFlag
    dsimp only
    split
    · exact Or.inl rfl
    · split
      · exact Or.inl rfl
      · right
        simp

/-- Claim C1: a sync request that carries a caller-supplied link or selector
(or both) leaves the latest-sync head unchanged, whatever the head query and
transfer outcomes are; and the head is replaced only when both were absent
and the sync succeeded, in which case it becomes the sync target. -/
theorem explicit_sync_isolation (hdss : Option Nat) (head : Cid) (r : Req)
    (getHead : Except String Cid) (syncRes : Cid → Sel → Option String) :
    ((r.c ≠ Cid.undef ∨ r.dss ≠ none) →
      (backgroundStep hdss head (.req r) getHead syncRes).head = head) ∧
    ((backgroundStep hdss head (.req r) getHead syncRes).head ≠ head →
      r.c = Cid.undef ∧ r.dss = none ∧
      (backgroundStep hdss head (.req r) getHead syncRes).outcome =
        .synced (backgroundStep hdss head (.req r) getHead syncRes).head true) := by
  have hc := backgroundStep_head_cases hdss head (.req r) getHead syncRes
  constructor
  · intro h
    rcases hc with hc | ⟨_, hflag⟩
    · exact hc
    · exfalso
      unfold updateHeadFlag at hflag
      rcases h with h | h
      · simp [h] at hflag
      · simp [h] at hflag
  · intro h
    rcases hc with hc | ⟨hout, hflag⟩
    · exact absurd hc h
    · unfold updateHeadFlag at hflag
      rw [Bool.and_eq_true, beq_iff_eq, beq_iff_eq] at hflag
      exact ⟨hflag.2, hflag.1, hout⟩

/-- Witness for C1: a concrete explicit request (link supplied) leaves the
head untouched even though the transfer succeeds. -/
theorem explicit_sync_isolation_witness :
    (backgroundStep none (Cid.mk 5) (.req ⟨Cid.mk 3, none⟩)
      (Except.ok (Cid.mk 9)) (fun _ _ => none)).head = Cid.mk 5 :=
  (explicit_sync_isolation none (Cid.mk 5) ⟨Cid.mk 3, none⟩
    (Except.ok (Cid.mk 9)) (fun _ _ => none)).1 (Or.inl (by decide))

/-- Claim C2: an iteration that ends in a head-query failure or a transfer
failure (cancellation surfaces as a transfer error) leaves the latest-sync
head unchanged; the head changes only on the success outcome of a sync with
the update flag set. -/
theorem latest_sync_unchanged_on_error (hdss : Option Nat) (head : Cid)
    (inp : BgInput) (getHead : Except String Cid)
    (syncRes : Cid → Sel → Option String) :
    ((backgroundStep hdss head inp getHead syncRes).outcome = .headFetchFailed ∨
     (backgroundStep hdss head inp getHead syncRes).outcome = .syncFailed →
      (backgroundStep hdss head inp getHead syncRes).head = head) ∧
    ((backgroundStep hdss head inp getHead syncRes).head ≠ head →
      ∃ tgt, (backgroundStep hdss head inp getHead syncRes).outcome =
        .synced tgt true) := by
  have hc := backgroundStep_head_cases hdss head inp getHead syncRes
  constructor
  · intro h
    rcases hc with hc | ⟨hout, _⟩
    · exact hc
    · exfalso
      rcases h with h | h <;> rw [h] at hout <;> exact BgOutcome.noConfusion hout
  · intro h
    rcases hc with hc | ⟨hout, _⟩
    · exact absurd hc h
    · exact ⟨_, hout⟩

/-- Witness for C2: a concrete failing default sync leaves the head
untouched. -/
theorem latest_sync_unchanged_on_error_witness :
    (backgroundStep none (Cid.mk 5) (.req ⟨Cid.undef, none⟩)
      (Except.ok (Cid.mk 9)) (fun _ _ => some "boom")).head = Cid.mk 5 :=
  (latest_sync_unchanged_on_error none (Cid.mk 5) (.req ⟨Cid.undef, none⟩)
    (Except.ok (Cid.mk 9)) (fun _ _ => some "boom")).1 (Or.inr (by decide))

end GoLegs

namespace GoLegs

/-! ## dtsync: the rate-limiting incoming-block hook

`Sync.addRateLimiting` (dtsync) wraps the user-facing incoming-block hook.
For each incoming block it first consults the per-peer rate limiter (skipped
entirely when the block came from the local store, i.e. its size on the wire
is zero); on refusal it records the link in the per-peer
`isRetryingDueToRateLimit` slot and terminates the transfer with the
sentinel error.  Otherwise it applies retry-skip logic on the slot before
deciding whether to call the wrapped hook `bFn` (which invokes the user
block hook). -/

/-- The sentinel error message `hitRateLimitErrStr`. -/
def hitRateLimitErrStr : String := "hit rate limit"

/-- The data the transport supplies about one incoming block. -/
structure BlockData where
  link : Cid
  blockSizeOnWire : Nat
deriving DecidableEq, Repr

/-- Observable effect of one invocation of the rate-limiting hook:
the updated `isRetryingDueToRateLimit` slots, whether `limiter.Allow` was
consulted and granted a token, the error passed to
`hookActions.TerminateWithError` if any, and whether the wrapped user block
hook was invoked. -/
structure GateResult where
  lastFailedAt : PeerId → Option Cid
  consultedLimiter : Bool
  tookToken : Bool
  terminatedWith : Option String
  hookCalled : Bool

/-- `Sync.addRateLimiting`, for the registered configuration in which the
wrapped hook `bFn` is the user block hook (non-nil).  `slot` is the current
`isRetryingDueToRateLimit` map; `allow` is what `limiter.Allow()` returns
when consulted. -/
def addRateLimiting (slot : PeerId → Option Cid) (p : PeerId)
    (bd : BlockData) (allow : Bool) : GateResult :=
  let isLocalBlock := bd.blockSizeOnWire == 0
  if !isLocalBlock && !allow then
    { lastFailedAt := fun q => if q = p then some bd.link else slot q
      consultedLimiter := true
      tookToken := false
      terminatedWith := some hitRateLimitErrStr
      hookCalled := false }
  else
    match slot p with
    | some lastFailedBlock =>
      if lastFailedBlock = bd.link then
        { lastFailedAt := fun q => if q = p then none else slot q
          consultedLimiter := !isLocalBlock
          tookToken := !isLocalBlock
          terminatedWith := none
          hookCalled := true }
      else
        { lastFailedAt := slot
          consultedLimiter := !isLocalBlock
          tookToken := !isLocalBlock
          terminatedWith := none
          hookCalled := false }
    | none =>
      { lastFailedAt := slot
        consultedLimiter := !isLocalBlock
        tookToken := !isLocalBlock
        terminatedWith := none
        hookCalled := true }

/-- Counterexample to C3 as stated: for a locally-present block (size on
wire zero) with no pending retry slot, the hook bypasses the limiter but
still invokes the user block hook. -/
theorem local_block_hook_called_counterexample :
    (addRateLimiting (fun _ => none) 0 ⟨Cid.mk 1, 0⟩ false).hookCalled = true ∧
    (addRateLimiting (fun _ => none) 0 ⟨Cid.mk 1, 0⟩ false).consultedLimiter
      = false := by
  constructor <;> rfl

/-- Claim C3 (amended): for every incoming block with size-on-wire zero the
limiter is never consulted (so no token is taken) and the transfer is not
terminated; the user block hook is invoked exactly when the peer is not in a
retry pass skipping this block, i.e. when the retry slot is empty or holds
this very link. -/
theorem local_block_bypasses_gate (slot : PeerId → Option Cid) (p : PeerId)
    (bd : BlockData) (allow : Bool) (h : bd.blockSizeOnWire = 0) :
    (addRateLimiting slot p bd allow).consultedLimiter = false ∧
    (addRateLimiting slot p bd allow).tookToken = false ∧
    (addRateLimiting slot p bd allow).terminatedWith = none ∧
    ((addRateLimiting slot p bd allow).hookCalled = true ↔
      (slot p = none ∨ slot p = some bd.link)) := by
  unfold addRateLimiting
  simp only [h]
  cases hs : slot p with
  | none => simp [hs]
  | some lastFailedBlock =>
    by_cases he : lastFailedBlock = bd.link
    · simp [hs, he]
    · simp [hs, he, Ne.symm he]

/-- Witness for C3 (amended): a concrete local block with an empty slot. -/
theorem local_block_bypasses_gate_witness :
    (addRateLimiting (fun _ => none) 3 ⟨Cid.mk 1, 0⟩ true).consultedLimiter
      = false ∧
    (addRateLimiting (fun _ => none) 3 ⟨Cid.mk 1, 0⟩ true).hookCalled
      = true := by
  have h := local_block_bypasses_gate (fun _ => none) 3 ⟨Cid.mk 1, 0⟩ true rfl
  exact ⟨h.1, h.2.2.2.mpr (Or.inl rfl)⟩

/-- Counterexample to C4 as stated: on the retry pass, when the block equal
to the recorded last-failed link arrives, the slot is cleared and the user
block hook IS invoked for that very block (the claim says it must not be
invoked for blocks up to and including the recorded one). -/
theorem retry_boundary_hook_called_counterexample :
    (addRateLimiting (fun _ => some (Cid.mk 7)) 0 ⟨Cid.mk 7, 5⟩ true).hookCalled
      = true ∧
    (addRateLimiting (fun _ => some (Cid.mk 7)) 0 ⟨Cid.mk 7, 5⟩ true).lastFailedAt 0
      = none := by
  constructor <;> rfl

/-- Claim C4 (amended): on a retry pass after a rate-limit failure for peer
p, every block whose link differs from the recorded `lastFailedAt[p]` is
passed over without invoking the user block hook while the gate still
consumes tokens normally, and the slot is kept; when the block equal to
`lastFailedAt[p]` is seen the slot is cleared and the user block hook is
invoked for that block (and, the slot now being empty, normally for
subsequent blocks). -/
theorem retry_skip_hook (slot : PeerId → Option Cid) (p : PeerId)
    (bd : BlockData) (allow : Bool) (x : Cid) (hslot : slot p = some x)
    (hgrant : bd.blockSizeOnWire = 0 ∨ allow = true) :
    (bd.link ≠ x →
      (addRateLimiting slot p bd allow).hookCalled = false ∧
      (addRateLimiting slot p bd allow).lastFailedAt p = some x ∧
      (addRateLimiting slot p bd allow).tookToken
        = !(bd.blockSizeOnWire == 0)) ∧
    (bd.link = x →
      (addRateLimiting slot p bd allow).hookCalled = true ∧
      (addRateLimiting slot p bd allow).lastFailedAt p = none ∧
      (addRateLimiting slot p bd allow).tookToken
        = !(bd.blockSizeOnWire == 0)) := by
  have hrefuse : (!(bd.blockSizeOnWire == 0) && !allow) = false := by
    rcases hgrant with h | h <;> simp [h]
  constructor
  · intro hne
    have hxne : ¬x = bd.link := fun hx => hne hx.symm
    unfold addRateLimiting
    simp [hrefuse, hslot, hxne]
  · intro he
    unfold addRateLimiting
    simp [hrefuse, hslot, he]

/-- Witness for C4 (amended): with the slot recording link 7, block 9 is
skipped (slot kept) and block 7 clears the slot with the hook invoked. -/
theorem retry_skip_hook_witness :
    (addRateLimiting (fun _ => some (Cid.mk 7)) 2 ⟨Cid.mk 9, 4⟩ true).hookCalled
      = false ∧
    (addRateLimiting (fun _ => some (Cid.mk 7)) 2 ⟨Cid.mk 9, 4⟩ true).lastFailedAt 2
      = some (Cid.mk 7) := by
  have h := retry_skip_hook (fun _ => some (Cid.mk 7)) 2 ⟨Cid.mk 9, 4⟩ true
    (Cid.mk 7) rfl (Or.inr rfl)
  have h2 := h.1 (by decide)
  exact ⟨h2.1, h2.2.1⟩

/-- Claim C5: for every non-local incoming block for which the limiter
refuses a token, the hook records the link of that block in the retry slot
of that peer (leaving other peers untouched), terminates the transfer with
the sentinel rate-limit error, does not invoke the user block hook, and
consumes no token. -/
theorem rate_limit_refusal (slot : PeerId → Option Cid) (p : PeerId)
    (bd : BlockData) (h0 : bd.blockSizeOnWire ≠ 0) :
    (addRateLimiting slot p bd false).lastFailedAt p = some bd.link ∧
    (∀ q, q ≠ p → (addRateLimiting slot p bd false).lastFailedAt q = slot q) ∧
    (addRateLimiting slot p bd false).terminatedWith
      = some hitRateLimitErrStr ∧
    (addRateLimiting slot p bd false).hookCalled = false ∧
    (addRateLimiting slot p bd false).tookToken = false := by
  unfold addRateLimiting
  simp only [h0]
  refine ⟨by simp [h0], fun q hq => by simp [h0, hq], by simp [h0], by simp [h0], by simp [h0]⟩

/-- Witness for C5: a concrete refused block. -/
theorem rate_limit_refusal_witness :
    (addRateLimiting (fun _ => none) 4 ⟨Cid.mk 2, 10⟩ false).lastFailedAt 4
      = some (Cid.mk 2) ∧
    (addRateLimiting (fun _ => none) 4 ⟨Cid.mk 2, 10⟩ false).terminatedWith
      = some hitRateLimitErrStr :=
  have h := rate_limit_refusal (fun _ => none) 4 ⟨Cid.mk 2, 10⟩ (by decide)
  ⟨h.1, h.2.2.1⟩

end GoLegs

namespace GoLegs

/-! ## dtsync: classification of terminal transfer events

`Sync.onEvent` receives channel-state updates from the datatransfer manager,
maps the terminal statuses to an error value (nil on success) and delivers
it through `signalSyncDone`; non-terminal statuses are ignored. -/

/-- Substring containment on character lists, the semantics of Go
`strings.Contains`. -/
def listInfixOf (needle : List Char) : List Char → Bool
  | [] => needle.isEmpty
  | c :: t => needle.isPrefixOf (c :: t) || listInfixOf needle t

/-- `strings.Contains hay needle`. -/
def strContains (hay needle : String) : Bool :=
  listInfixOf needle.toList hay.toList

/-- `strings.HasSuffix s suffix`. -/
def strEndsWith (s suffix : String) : Bool :=
  suffix.toList.isSuffixOf s.toList

/-- A Go error value as dtsync distinguishes them: the dedicated
`rateLimitErr` type versus every other error; `message` is `Error()`. -/
inductive GoErr
  | rateLimitErr (msg : String)
  | plain (msg : String)
deriving DecidableEq, Repr

/-- `Error()` of a `GoErr`. -/
def GoErr.message : GoErr → String
  | .rateLimitErr m => m
  | .plain m => m

/-- The channel status seen by `Sync.onEvent`, with its message for the
failed case. -/
inductive DtStatus
  | completed
  | cancelled
  | failed (msg : String)
  | nonTerminal (code : Nat)
deriving DecidableEq, Repr

/-- The classification step of `Sync.onEvent`: `none` when the status is
non-terminal (the event is dropped), otherwise `some err?` where `err?` is
the error (or `none` on success) handed to `signalSyncDone`. -/
def onEventClassify : DtStatus → Option (Option GoErr)
  | .completed => some none
  | .cancelled => some (some (.plain "datatransfer cancelled"))
  | .failed msg =>
    let err : GoErr :=
      if strContains msg hitRateLimitErrStr then .rateLimitErr msg
      else .plain ("datatransfer failed: " ++ msg)
    let err :=
      if strEndsWith msg "content not found" then
        .plain (err.message ++ ": content not found")
      else err
    some (some err)
  | .nonTerminal _ => none

/-- Counterexample to C6 as stated: a failure message that contains the
rate-limit sentinel but also ends in "content not found" is replaced by a
plain annotated error, so it does not produce the rate-limited outcome. -/
theorem rate_limit_event_counterexample :
    strContains "hit rate limit: content not found" hitRateLimitErrStr
      = true ∧
    onEventClassify (.failed "hit rate limit: content not found")
      = some (some (.plain
          "hit rate limit: content not found: content not found")) := by
  constructor
  · decide
  · decide

/-- Claim C6 (amended): Completed yields a nil error and Cancelled a
cancellation error; a Failed message not ending in "content not found" is
classified as the rate-limited error exactly when it contains the sentinel
and as a plain failure otherwise; a Failed message ending in "content not
found" always yields a plain error annotated with ": content not found",
even when it contains the sentinel; non-terminal statuses are dropped. -/
theorem event_classification (msg : String) :
    onEventClassify .completed = some none ∧
    onEventClassify .cancelled
      = some (some (.plain "datatransfer cancelled")) ∧
    (∀ code, onEventClassify (.nonTerminal code) = none) ∧
    (strContains msg hitRateLimitErrStr = true →
      strEndsWith msg "content not found" = false →
      onEventClassify (.failed msg) = some (some (.rateLimitErr msg))) ∧
    (strContains msg hitRateLimitErrStr = false →
      strEndsWith msg "content not found" = false →
      onEventClassify (.failed msg)
        = some (some (.plain ("datatransfer failed: " ++ msg)))) ∧
    (strEndsWith msg "content not found" = true →
      onEventClassify (.failed msg)
        = some (some (.plain
            ((if strContains msg hitRateLimitErrStr then msg
              else "datatransfer failed: " ++ msg)
              ++ ": content not found")))) := by
  refine ⟨rfl, rfl, fun _ => rfl, ?_, ?_, ?_⟩
  · intro h1 h2
    simp [onEventClassify, h1, h2]
  · intro h1 h2
    simp [onEventClassify, h1, h2]
  · intro h1
    by_cases h2 : strContains msg hitRateLimitErrStr = true
    · simp [onEventClassify, h1, h2, GoErr.message]
    · rw [Bool.not_eq_true] at h2
      simp [onEventClassify, h1, h2, GoErr.message]

/-- Witness for C6 (amended): a concrete sentinel-bearing failure message is
classified as the rate-limited error. -/
theorem event_classification_witness :
    onEventClassify (.failed "transfer hit rate limit")
      = some (some (.rateLimitErr "transfer hit rate limit")) :=
  (event_classification "transfer hit rate limit").2.2.2.1
    (by decide) (by decide)

end GoLegs

namespace GoLegs

/-! ## dtsync: the in-progress sync table

`Sync.syncDoneChans` maps an in-progress key (CID, peer) to the channel the
waiting handler listens on.  `notifyOnSyncDone` registers a fresh channel
under a key; `signalSyncDone` removes the entry, sends the error (when
non-nil) and closes the channel, reporting whether an entry was found.  The
Go map is embedded as an association list; the nil map is the empty list. -/

/-- The in-progress sync key `inProgressSyncKey`: CID plus peer. -/
structure InProgressSyncKey where
  c : Cid
  peer : PeerId
deriving DecidableEq, Repr

/-- A sync-done channel: everything sent on it so far, and whether it has
been closed. -/
structure DoneChan where
  sent : List GoErr
  closed : Bool
deriving DecidableEq, Repr

/-- The `syncDoneChans` table. -/
abbrev SyncDoneChans := List (InProgressSyncKey × DoneChan)

/-- Go map lookup. -/
def mapLookup (m : SyncDoneChans) (k : InProgressSyncKey) : Option DoneChan :=
  match m with
  | [] => none
  | (k', v) :: t => if k' = k then some v else mapLookup t k

/-- Go map `delete`. -/
def mapErase (m : SyncDoneChans) (k : InProgressSyncKey) : SyncDoneChans :=
  match m with
  | [] => []
  | (k', v) :: t => if k' = k then mapErase t k else (k', v) :: mapErase t k

/-- Go map assignment `m[k] = v` (replaces an existing entry). -/
def mapStore (m : SyncDoneChans) (k : InProgressSyncKey) (v : DoneChan) :
    SyncDoneChans :=
  match m with
  | [] => [(k, v)]
  | (k', v') :: t =>
    if k' = k then (k, v) :: t else (k', v') :: mapStore t k v

/-- `Sync.notifyOnSyncDone`: registers a fresh unbuffered-result channel
under the key. -/
def notifyOnSyncDone (m : SyncDoneChans) (k : InProgressSyncKey) :
    SyncDoneChans :=
  mapStore m k ⟨[], false⟩

/-- Result of `Sync.signalSyncDone`: the updated table, the returned Bool,
and the final state of the channel that was signalled, if one was found. -/
structure SignalResult where
  chans : SyncDoneChans
  found : Bool
  delivered : Option DoneChan
deriving DecidableEq, Repr

/-- `Sync.signalSyncDone`: looks the key up; when present, removes the entry
(resetting the whole table to nil when it was the only one), sends the error
if non-nil and closes the channel. -/
def signalSyncDone (m : SyncDoneChans) (k : InProgressSyncKey)
    (err : Option GoErr) : SignalResult :=
  match mapLookup m k with
  | none => ⟨m, false, none⟩
  | some ch =>
    let m' := if m.length = 1 then [] else mapErase m k
    let ch' : DoneChan :=
      ⟨ch.sent ++ (match err with | some e => [e] | none => []), true⟩
    ⟨m', true, some ch'⟩

/-- The at-most-one-entry-per-key invariant of the table: no key of an
entry occurs again later in the list. -/
def keysNodup : SyncDoneChans → Prop
  | [] => True
  | (k, _) :: t => mapLookup t k = none ∧ keysNodup t

/-- Helper: after erasing a key, looking it up finds nothing. -/
theorem mapLookup_mapErase (m : SyncDoneChans) (k : InProgressSyncKey) :
    mapLookup (mapErase m k) k = none := by
  induction m with
  | nil => rfl
  | cons hd t ih =>
    rcases hd with ⟨k', v⟩
    by_cases h : k' = k
    · simpa [mapErase, h] using ih
    · simpa [mapErase, mapLookup, h] using ih

/-- Helper: erasing one key does not touch lookups of another. -/
theorem mapLookup_mapErase_ne (m : SyncDoneChans) (k x : InProgressSyncKey)
    (hx : x ≠ k) : mapLookup (mapErase m k) x = mapLookup m x := by
  induction m with
  | nil => rfl
  | cons hd t ih =>
    rcases hd with ⟨k', v⟩
    by_cases h : k' = k
    · subst h
      have : ¬k' = x := fun he => hx he.symm
      simp [mapErase, mapLookup, this, ih]
    · by_cases h2 : k' = x
      · simp [mapErase, mapLookup, h, h2, hx]
      · simp [mapErase, mapLookup, h, h2, ih]

/-- Helper: storing under one key does not touch lookups of another. -/
theorem mapLookup_mapStore_ne (m : SyncDoneChans) (k x : InProgressSyncKey)
    (v : DoneChan) (hx : x ≠ k) :
    mapLookup (mapStore m k v) x = mapLookup m x := by
  induction m with
  | nil =>
    have : ¬k = x := fun he => hx he.symm
    simp [mapStore, mapLookup, this]
  | cons hd t ih =>
    rcases hd with ⟨k', v'⟩
    by_cases h : k' = k
    · subst h
      have : ¬k' = x := fun he => hx he.symm
      simp [mapStore, mapLookup, this]
    · by_cases h2 : k' = x
      · simp [mapStore, mapLookup, h, h2, hx]
      · simp [mapStore, mapLookup, h, h2, ih]

/-- Helper: `mapStore` preserves the at-most-one-entry invariant. -/
theorem keysNodup_mapStore (m : SyncDoneChans) (k : InProgressSyncKey)
    (v : DoneChan) (h : keysNodup m) : keysNodup (mapStore m k v) := by
  induction m with
  | nil => exact ⟨rfl, trivial⟩
  | cons hd t ih =>
    rcases hd with ⟨k', v'⟩
    rcases h with ⟨hk', ht⟩
    by_cases he : k' = k
    · subst he
      simp only [mapStore, if_pos rfl]
      exact ⟨hk', ht⟩
    · simp only [mapStore, if_neg he]
      show mapLookup (mapStore t k v) k' = none ∧ keysNodup (mapStore t k v)
      refine ⟨?_, ih ht⟩
      rw [mapLookup_mapStore_ne t k k' v (fun h2 => he h2)]
      exact hk'

/-- Helper: erasing preserves the at-most-one-entry invariant. -/
theorem keysNodup_mapErase (m : SyncDoneChans) (k : InProgressSyncKey)
    (h : keysNodup m) : keysNodup (mapErase m k) := by
  induction m with
  | nil => trivial
  | cons hd t ih =>
    rcases hd with ⟨k', v'⟩
    rcases h with ⟨hk', ht⟩
    by_cases he : k' = k
    · simpa [mapErase, he] using ih ht
    · simp only [mapErase, if_neg he]
      show mapLookup (mapErase t k) k' = none ∧ keysNodup (mapErase t k)
      refine ⟨?_, ih ht⟩
      rw [mapLookup_mapErase_ne t k k' (fun hx => he hx)]
      exact hk'

/-- Helper: the equation of `signalSyncDone` when the key is present. -/
theorem signalSyncDone_found (m : SyncDoneChans) (k : InProgressSyncKey)
    (err : Option GoErr) (ch : DoneChan) (hl : mapLookup m k = some ch) :
    signalSyncDone m k err =
      ⟨if m.length = 1 then [] else mapErase m k, true,
        some ⟨ch.sent ++ (match err with | some e => [e] | none => []),
          true⟩⟩ := by
  unfold signalSyncDone
  rw [hl]

/-- Helper: the equation of `signalSyncDone` when the key is absent. -/
theorem signalSyncDone_notFound (m : SyncDoneChans) (k : InProgressSyncKey)
    (err : Option GoErr) (hl : mapLookup m k = none) :
    signalSyncDone m k err = ⟨m, false, none⟩ := by
  unfold signalSyncDone
  rw [hl]

/-- Claim C7: registering preserves at most one channel per key, a signal
preserves it as well, and completion is delivered exactly once: after a
successful signal removed and closed the channel, a second signal for the
same key finds no channel, delivers nothing and leaves the table unchanged.
A successful signal closes the channel it delivers on. -/
theorem sync_done_delivered_once (m : SyncDoneChans) (k : InProgressSyncKey)
    (err err' : Option GoErr) :
    (keysNodup m →
      keysNodup (notifyOnSyncDone m k) ∧
      keysNodup (signalSyncDone m k err).chans) ∧
    ((signalSyncDone m k err).found = true →
      (∃ ch, (signalSyncDone m k err).delivered = some ch ∧ ch.closed = true) ∧
      (signalSyncDone (signalSyncDone m k err).chans k err').found = false ∧
      (signalSyncDone (signalSyncDone m k err).chans k err').delivered = none ∧
      (signalSyncDone (signalSyncDone m k err).chans k err').chans
        = (signalSyncDone m k err).chans) := by
  constructor
  · intro h
    refine ⟨keysNodup_mapStore m k ⟨[], false⟩ h, ?_⟩
    cases hl : mapLookup m k with
    | none => rw [signalSyncDone_notFound m k err hl]; exact h
    | some ch =>
      rw [signalSyncDone_found m k err ch hl]
      by_cases hlen : m.length = 1
      · simp only [hlen, if_pos]
        trivial
      · simp only [hlen, if_neg, ite_false]
        exact keysNodup_mapErase m k h
  · intro hfound
    cases hl : mapLookup m k with
    | none =>
      rw [signalSyncDone_notFound m k err hl] at hfound
      exact absurd hfound (by simp)
    | some ch =>
      rw [signalSyncDone_found m k err ch hl]
      have hnone :
          mapLookup (if m.length = 1 then [] else mapErase m k) k = none := by
        by_cases hlen : m.length = 1
        · simp [hlen, mapLookup]
        · simp [hlen, mapLookup_mapErase]
      rw [signalSyncDone_notFound _ k err' hnone]
      exact ⟨⟨_, rfl, rfl⟩, rfl, rfl, rfl⟩

/-- Witness for C7: a concrete one-entry table signalled twice. -/
theorem sync_done_delivered_once_witness :
    (signalSyncDone
      (signalSyncDone [(⟨Cid.mk 1, 2⟩, ⟨[], false⟩)] ⟨Cid.mk 1, 2⟩
        (some (.plain "boom"))).chans
      ⟨Cid.mk 1, 2⟩ none).found = false :=
  ((sync_done_delivered_once [(⟨Cid.mk 1, 2⟩, ⟨[], false⟩)] ⟨Cid.mk 1, 2⟩
    (some (.plain "boom")) none).2 rfl).2.1

end GoLegs

namespace GoLegs

/-! ## Shutdown semantics

`Sync.Close` (dtsync) dismisses every handler still waiting on a sync-done
channel: it sends a "sync closed" error on the channel, closes it, and
resets the table to nil.  `httpSubscriber.Close` closes every observer
channel and empties the subscription list.  The broker itself is not among
the sources (only its tests are), so its post-close behaviour is modelled
from the spec. -/

/-- An observer channel held by a subscriber of `OnChange` (`h.subs`). -/
structure ObsChan where
  closed : Bool
deriving DecidableEq, Repr

/-- `httpSubscriber.Close`: the final state of the observer channels, and
the new (emptied) subscription list. -/
def httpSubscriberClose (subs : List ObsChan) :
    List ObsChan × List ObsChan :=
  (subs.map (fun _ => ⟨true⟩), [])

/-- The `Close` step of dtsync `Sync` that dismisses waiting handlers:
every in-flight sync-done channel receives the "sync closed" error and is
then closed (its `sent` list therefore ends with the error while `closed`
is set); the table becomes nil.  Returns the final channel states paired
with their keys, and the new table. -/
def dtSyncClose (m : SyncDoneChans) :
    List (InProgressSyncKey × DoneChan) × SyncDoneChans :=
  (m.map (fun kv =>
    (kv.1, ⟨kv.2.sent ++ [GoErr.plain "sync closed"], true⟩)), [])

/-- Modelled from the spec: the broker implementation (package broker) is
missing from the sources, only its tests are present; per the spec sentence
"operations after close() return a shutdown error", an operation invoked on
a closed broker short-circuits to a shutdown error, and otherwise produces
whatever the open-broker operation produces. -/
def brokerOpAfterClose (closed : Bool) (op : Except String Cid) :
    Except String Cid :=
  if closed then .error "shutdown" else op

/-- Helper: a successful lookup exhibits the entry. -/
theorem mapLookup_mem (m : SyncDoneChans) (k : InProgressSyncKey)
    (ch : DoneChan) (h : mapLookup m k = some ch) : (k, ch) ∈ m := by
  induction m with
  | nil => exact absurd h (by simp [mapLookup])
  | cons hd t ih =>
    rcases hd with ⟨k', v⟩
    by_cases he : k' = k
    · subst he
      simp [mapLookup] at h
      cases h
      exact List.mem_cons_self _ _
    · simp only [mapLookup, if_neg he] at h
      exact List.mem_cons_of_mem _ (ih h)

/-- Claim C8: operations on the closed broker return a shutdown error; the
subscriber close closes every observer channel and empties the list; and
every sync in flight at close time has its done-channel receive the "sync
closed" error and then be closed, the table becoming nil. -/
theorem closed_after_shutdown (m : SyncDoneChans) (subs : List ObsChan)
    (op : Except String Cid) :
    brokerOpAfterClose true op = .error "shutdown" ∧
    (∀ ch ∈ (httpSubscriberClose subs).1, ch.closed = true) ∧
    (httpSubscriberClose subs).2 = [] ∧
    (∀ k ch, mapLookup m k = some ch →
      ∃ ch', (k, ch') ∈ (dtSyncClose m).1 ∧
        ch'.sent = ch.sent ++ [GoErr.plain "sync closed"] ∧
        ch'.closed = true) ∧
    (dtSyncClose m).2 = [] := by
  refine ⟨rfl, ?_, rfl, ?_, rfl⟩
  · intro ch hch
    rcases List.mem_map.mp hch with ⟨_, _, hmap⟩
    rw [← hmap]
  · intro k ch hk
    refine ⟨⟨ch.sent ++ [GoErr.plain "sync closed"], true⟩, ?_, rfl, rfl⟩
    have hmem := mapLookup_mem m k ch hk
    exact List.mem_map.mpr ⟨(k, ch), hmem, rfl⟩

/-- Witness for C8: a concrete in-flight sync is dismissed by close. -/
theorem closed_after_shutdown_witness :
    ∃ ch', (⟨Cid.mk 1, 2⟩, ch')
        ∈ (dtSyncClose [(⟨Cid.mk 1, 2⟩, ⟨[], false⟩)]).1 ∧
      ch'.sent = ([] : List GoErr) ++ [GoErr.plain "sync closed"] ∧
      ch'.closed = true :=
  (closed_after_shutdown [(⟨Cid.mk 1, 2⟩, ⟨[], false⟩)] []
    (.ok Cid.undef)).2.2.2.1 ⟨Cid.mk 1, 2⟩ ⟨[], false⟩ rfl

end GoLegs

namespace GoLegs

/-! ## HTTP publisher

`publisher.ServeHTTP` (httpsync part_001) serves the current root under the
path segment "head" and otherwise interprets the last path segment as a CID
to load from the link system. -/

/-- Outcome of `lsys.Load`: a node, the not-exists error, or another
error. -/
inductive LoadResult
  | ok (node : Nat)
  | notExists
  | otherErr (msg : String)
deriving DecidableEq, Repr

/-- The body written in each branch of `ServeHTTP`: the JSON-marshalled
string of the root, the dagjson encoding of a loaded node, or the plain
text of `http.Error`. -/
inductive Body
  | jsonStr (s : String)
  | dagJson (node : Nat)
  | text (s : String)
deriving DecidableEq, Repr

/-- An HTTP response: status code and body. -/
structure HttpResponse where
  status : Nat
  body : Body
deriving DecidableEq, Repr

/-- `path.Base` over the request path split into segments: the last
segment, or "." for an empty path. -/
def pathBase (segs : List String) : String :=
  (segs.getLast?).getD "."

/-- `publisher.ServeHTTP`.  `parseCid` is `cid.Parse` (none on parse
error); `load` is `lsys.Load` on the link of a CID; `cidToStr` is
`Cid.String`; `root` is the current `p.root`; `segs` the request path. -/
def serveHTTP (parseCid : String → Option Cid) (load : Cid → LoadResult)
    (cidToStr : Cid → String) (root : Cid) (segs : List String) :
    HttpResponse :=
  let ask := pathBase segs
  if ask = "head" then
    ⟨200, .jsonStr (cidToStr root)⟩
  else
    match parseCid ask with
    | none => ⟨400, .text "invalid request: not a cid"⟩
    | some c =>
      match load c with
      | .notExists => ⟨404, .text "cid not found"⟩
      | .otherErr _ => ⟨500, .text "unable to load data for cid"⟩
      | .ok item => ⟨200, .dagJson item⟩

/-- `publisher.UpdateRoot` (httpsync): replaces the stored root with the
given CID. -/
def publisherUpdateRoot (_root : Cid) (c : Cid) : Cid := c

/-- Claim C9: a request whose last path segment is "head" is answered with
the JSON-encoded string form of the current root (in particular of the CID
set by the latest UpdateRoot); a last segment parsing as a CID is answered
with the dagjson encoding of the block when present and 404 when the link
system reports it absent; a last segment that is not a valid CID is
answered with 400. -/
theorem serve_http_spec (parseCid : String → Option Cid)
    (load : Cid → LoadResult) (cidToStr : Cid → String) (root : Cid)
    (segs : List String) :
    (pathBase segs = "head" →
      ∀ c, serveHTTP parseCid load cidToStr (publisherUpdateRoot root c) segs
        = ⟨200, .jsonStr (cidToStr c)⟩) ∧
    (pathBase segs ≠ "head" →
      (parseCid (pathBase segs) = none →
        serveHTTP parseCid load cidToStr root segs
          = ⟨400, .text "invalid request: not a cid"⟩) ∧
      (∀ c, parseCid (pathBase segs) = some c →
        (∀ node, load c = .ok node →
          serveHTTP parseCid load cidToStr root segs
            = ⟨200, .dagJson node⟩) ∧
        (load c = .notExists →
          serveHTTP parseCid load cidToStr root segs
            = ⟨404, .text "cid not found"⟩))) := by
  constructor
  · intro hh c
    simp [serveHTTP, hh, publisherUpdateRoot]
  · intro hh
    constructor
    · intro hp
      simp [serveHTTP, hh, hp]
    · intro c hp
      constructor
      · intro node hl
        simp [serveHTTP, hh, hp, hl]
      · intro hl
        simp [serveHTTP, hh, hp, hl]

/-- Witness for C9: a concrete head request after an UpdateRoot. -/
theorem serve_http_spec_witness :
    serveHTTP (fun _ => none) (fun _ => .notExists) (fun _ => "bafyA")
      (publisherUpdateRoot Cid.undef (Cid.mk 1)) ["topic", "head"]
      = ⟨200, .jsonStr "bafyA"⟩ :=
  (serve_http_spec (fun _ => none) (fun _ => .notExists) (fun _ => "bafyA")
    Cid.undef ["topic", "head"]).1 rfl (Cid.mk 1)

end GoLegs

namespace GoLegs

/-! ## pubsub publisher: UpdateRoot readiness

`legPublisher.UpdateRoot` (publish.go) prepends
`pubsub.WithReadiness(pubsub.MinTopicSize(1))` to the caller-supplied
publish options before calling `topic.Publish`. -/

/-- A pubsub publish option: a readiness requirement of a minimum topic
size, or any other option. -/
inductive PubOpt
  | withReadiness (minTopicSize : Nat)
  | other (n : Nat)
deriving DecidableEq, Repr

/-- The option list `legPublisher.UpdateRoot` hands to `topic.Publish`:
the default readiness option prepended to the caller options. -/
def updateRootOpts (opts : List PubOpt) : List PubOpt :=
  PubOpt.withReadiness 1 :: opts

/-- Modelled from the pubsub collaborator interface: options are applied in
order and each readiness option replaces the requirement, so the
requirement in force is the last readiness option of the list. -/
def effectiveReadiness (opts : List PubOpt) : Option Nat :=
  opts.foldl (fun acc o =>
    match o with
    | .withReadiness n => some n
    | .other _ => acc) none

/-- Modelled from the pubsub collaborator interface: `Publish` blocks until
the readiness requirement in force is met, hence cannot succeed while the
topic holds fewer peers than required. -/
def publishCanSucceed (topicPeers : Nat) (opts : List PubOpt) : Bool :=
  match effectiveReadiness opts with
  | none => true
  | some n => decide (n ≤ topicPeers)

/-- Whether an `UpdateRoot` with the given caller options can succeed at
the given topic size. -/
def updateRootCanSucceed (topicPeers : Nat) (callerOpts : List PubOpt) :
    Bool :=
  publishCanSucceed topicPeers (updateRootOpts callerOpts)

/-- Claim C10: UpdateRoot prepends the minimum-topic-size-one readiness
option before any caller-supplied options, and consequently an UpdateRoot
with default (no caller) options can succeed exactly when at least one
other peer is in the topic, so never while no other peer is subscribed. -/
theorem update_root_readiness (callerOpts : List PubOpt) (topicPeers : Nat) :
    updateRootOpts callerOpts = PubOpt.withReadiness 1 :: callerOpts ∧
    (updateRootCanSucceed topicPeers [] = true ↔ 1 ≤ topicPeers) ∧
    updateRootCanSucceed 0 [] = false := by
  refine ⟨rfl, ?_, rfl⟩
  simp [updateRootCanSucceed, publishCanSucceed, effectiveReadiness,
    updateRootOpts]

/-- Witness for C10: the concrete option list of an UpdateRoot with one
caller option. -/
theorem update_root_readiness_witness :
    updateRootOpts [PubOpt.other 3]
      = [PubOpt.withReadiness 1, PubOpt.other 3] :=
  (update_root_readiness [PubOpt.other 3] 0).1

end GoLegs
